import Mathlib

/-!
Verification development for the `event` queue package: a shallow embedding of
the namespace-addressed queue service, the label-addressed queue service, and
the event/signal entities, together with theorems settling the specification
claims against this embedding.

Conventions of the embedding:
* Go's storage backend (redis-like) is a record of three typed key spaces:
  lists, sets and plain values, each a total function from string keys, with an
  absent key represented by the empty list / the empty set / `none`.  This
  matches redis semantics where a list key holding zero elements does not
  exist.
* Machine time is a natural number; `0` plays the role of Go's zero
  `time.Time`.
* Go functions returning `error` become functions into `Except Err _`.
* External collaborators (the unique-ID generator, the clock, the random set
  member choice of the backend, and the retry budget of the backoff policy)
  are passed in as explicit parameters.
-/

namespace EventPkg

/-- Error taxonomy of the package.  `invalidUnmarshal` stands for the error
`encoding/json` returns when handed a nil pointer.  `outOfFuel` is a modelling
device for Go's unbounded `for` loop in `WriteAll`: it is returned only when
the supplied drain budget is exhausted and never arises when enough budget is
given. -/
inductive Err where
  | invalidConfig
  | invalidExecution
  | notFound
  | invalidUnmarshal
  | outOfFuel
deriving DecidableEq, Repr

/-- The storage backend: ordered lists, sets (kept as duplicate-free lists of
members) and a plain key/value space, all keyed by strings.  An absent key is
the empty list, the empty set, or `none`. -/
structure Storage where
  lists : String → List String
  sets : String → List String
  kv : String → Option String

/-- The empty backend. -/
def emptyStorage : Storage :=
  { lists := fun _ => [], sets := fun _ => [], kv := fun _ => none }

/-- Overwrite one list key. -/
def setList (s : Storage) (k : String) (v : List String) : Storage :=
  { s with lists := fun k2 => if k2 = k then v else s.lists k2 }

/-- redis RPUSH: append one element at the tail of a list. -/
def pushToList (s : Storage) (k : String) (v : String) : Storage :=
  setList s k (s.lists k ++ [v])

/-- redis LPOP: pop the head of a list; a missing or empty list is a not-found
error. -/
def popFromList (s : Storage) (k : String) : Except Err (String × Storage) :=
  match s.lists k with
  | [] => .error .notFound
  | x :: xs => .ok (x, setList s k xs)

/-- redis LRANGE 0 -1: the whole list, empty when the key is absent. -/
def getAllFromList (s : Storage) (k : String) : List String :=
  s.lists k

/-- redis LREM: remove every occurrence of a value from a list; a no-op on a
missing key. -/
def removeFromList (s : Storage) (k : String) (v : String) : Storage :=
  setList s k ((s.lists k).filter (fun x => x ≠ v))

/-- redis LLEN. -/
def lengthOfList (s : Storage) (k : String) : Nat :=
  (s.lists k).length

/-- Trim a list to its last `max` elements (the tail-retained entries). -/
def trimEndOfList (s : Storage) (k : String) (max : Nat) : Storage :=
  setList s k ((s.lists k).drop ((s.lists k).length - max))

/-- redis DEL on a list key; a no-op on a missing key. -/
def removeListKey (s : Storage) (k : String) : Storage :=
  setList s k []

/-- redis EXISTS on a list key: a list exists iff it is non-empty. -/
def listExists (s : Storage) (k : String) : Bool :=
  !(s.lists k).isEmpty

/-- redis SADD: add a member to a set; duplicated elements are ignored. -/
def pushToSet (s : Storage) (k : String) (v : String) : Storage :=
  { s with
    sets := fun k2 =>
      if k2 = k then (if (s.sets k).contains v then s.sets k else s.sets k ++ [v])
      else s.sets k2 }

/-- redis SREM: remove a member from a set; a no-op when absent. -/
def removeFromSet (s : Storage) (k : String) (v : String) : Storage :=
  { s with
    sets := fun k2 =>
      if k2 = k then (s.sets k).filter (fun x => x ≠ v) else s.sets k2 }

/-- redis SRANDMEMBER: one member of a set, chosen by the backend; the choice
is made explicit by the `pick` parameter.  A missing or empty set is a
not-found error. -/
def getRandomFromSet (s : Storage) (k : String) (pick : Nat) : Except Err String :=
  match s.sets k with
  | [] => .error .notFound
  | x :: xs => .ok ((x :: xs).getD (pick % (x :: xs).length) x)

/-- redis SET on the plain key/value space. -/
def kvSet (s : Storage) (k : String) (v : String) : Storage :=
  { s with kv := fun k2 => if k2 = k then some v else s.kv k2 }

/-- redis GET: a missing key is a not-found error. -/
def kvGet (s : Storage) (k : String) : Except Err String :=
  match s.kv k with
  | none => .error .notFound
  | some v => .ok v

/-- redis DEL on a plain key; a no-op on a missing key. -/
def kvRemove (s : Storage) (k : String) : Storage :=
  { s with kv := fun k2 => if k2 = k then none else s.kv k2 }

/-! ## The event entity

Embeds the ID-bearing `event` struct: unexported fields `created`, `id`,
`payload`, a `Clone`-based `MarshalJSON`, and an `UnmarshalJSON` that caches
the incoming bytes as the payload. -/

/-- The `event` struct.  `created` is a timestamp (`0` = Go's zero time). -/
structure event where
  created : Nat
  id : String
  payload : String
deriving DecidableEq, Repr

/-- The byte-string `encoding/json` produces for a struct none of whose fields
are exported: the empty JSON object. -/
def emptyJsonObject : String := "\x7b\x7d"

/-- `event.MarshalJSON`: `json.Marshal` of the `Clone` struct.  Every field of
`event` (and hence of `Clone`) is unexported, so the json encoder skips them
all and emits the empty object, whatever the field values are. -/
def event.MarshalJSON (_ : event) : String := emptyJsonObject

/-- `event.UnmarshalJSON`: the inner `json.Unmarshal` into the `Clone` view
assigns no field, because every field is unexported; the only effect is
`e.payload = string(b)`.  (In Go the call fails when the bytes do not parse
as a JSON object; every byte-string this development actually deserializes —
the empty object emitted by `MarshalJSON` and the valid-JSON-object payloads
of the demo events — does parse, so the failure path is not modelled.) -/
def event.UnmarshalJSON (e : event) (b : String) : event :=
  { e with payload := b }

/-- Construction input for `New`. -/
structure Config where
  created : Nat
  id : String
  payload : String

/-- `New`: validates the timestamp and the identifier, then computes and
caches the entity's own serialization as its payload. -/
def New (c : Config) : Except Err event :=
  if c.created = 0 then .error .invalidConfig
  else if c.id = "" then .error .invalidConfig
  else
    let e : event := { created := c.created, id := c.id, payload := c.payload }
    .ok { e with payload := e.MarshalJSON }

/-! ## The namespace-addressed queue service

Embeds the per-kind service with operations `Create`, `Delete`, `ExistsAny`,
`Limit`, `Search`, `SearchAll` and `WriteAll`.  `ctx` parameters of the Go
methods carry no data relevant to the embedded behaviour and are dropped. -/

/-- The wildcard sentinel label, legal only for `Search`. -/
def LabelWildcard : String := "*"

/-- Charwise lexicographic "less or equal" on character lists; the order
`sort.Strings` sorts by (byte-wise comparison of UTF-8 strings coincides with
code-point-wise comparison). -/
def strLeB : List Char → List Char → Bool
  | [], _ => true
  | _ :: _, [] => false
  | a :: as, b :: bs =>
    if a.toNat < b.toNat then true
    else if b.toNat < a.toNat then false
    else strLeB as bs

/-- Lexicographic "less or equal" on strings. -/
def strLe (a b : String) : Bool := strLeB a.data b.data

/-- `sort.Strings`: sort a list of strings into ascending lexicographic
order. -/
def sortStrings (l : List String) : List String :=
  l.insertionSort (fun a b => strLe a b = true)

namespace NsService

/-- Key of the payload of one event. -/
def eventKey (kind eventID : String) : String :=
  "service:event:kind:" ++ kind ++ ":event:" ++ eventID

/-- Key of the queue (a redis list) of one namespace. -/
def namespaceKey (kind ns : String) : String :=
  "service:event:kind:" ++ kind ++ ":namespace:" ++ ns

/-- Key of the lookup table (a redis set) holding all namespaces. -/
def tableKey (kind : String) : String :=
  "service:event:kind:" ++ kind ++ ":table"

/-- `namespaceFromLabels`: sort the labels lexicographically (`sort.Strings`)
and concatenate them with no separator (`strings.Join(labels, "")`). -/
def namespaceFromLabels (labels : List String) : String :=
  String.join (sortStrings labels)

/-- `Create`: register the namespace in the lookup table, append the event's
identifier to the namespace queue, store the event payload. -/
def Create (kind : String) (e : event) (labels : List String) (s : Storage) :
    Except Err Storage :=
  let ns := namespaceFromLabels labels
  if ns = LabelWildcard then .error .invalidExecution
  else
    let s1 := pushToSet s (tableKey kind) ns
    let s2 := pushToList s1 (namespaceKey kind ns) e.id
    let s3 := kvSet s2 (eventKey kind e.id) e.payload
    .ok s3

/-- `Delete`: remove the stored payload of the event's identifier; queues and
lookup table are not touched. -/
def Delete (kind : String) (e : event) (labels : List String) (s : Storage) :
    Except Err Storage :=
  let ns := namespaceFromLabels labels
  if ns = LabelWildcard then .error .invalidExecution
  else .ok (kvRemove s (eventKey kind e.id))

/-- `ExistsAny`: true iff the namespace queue exists (an empty list does not
exist in the backend). -/
def ExistsAny (kind : String) (labels : List String) (s : Storage) :
    Except Err Bool :=
  let ns := namespaceFromLabels labels
  if ns = LabelWildcard then .error .invalidExecution
  else .ok (listExists s (namespaceKey kind ns))

/-- `Limit`: trim the namespace queue to its last `max` entries. -/
def Limit (kind : String) (max : Int) (labels : List String) (s : Storage) :
    Except Err Storage :=
  if max < 1 then .error .invalidExecution
  else
    let ns := namespaceFromLabels labels
    if ns = LabelWildcard then .error .invalidExecution
    else .ok (trimEndOfList s (namespaceKey kind ns) max.toNat)

/-- Per-attempt environment of `Search`: the backend's random member choice
and the ID generator / clock outputs consumed by `New(DefaultConfig())`. -/
structure SearchEnv where
  pick : Nat
  freshId : String
  now : Nat

/-- Body of the retry action of `Search` once the namespace variable holds a
concrete (non-wildcard, or randomly drawn) namespace: pop the head identifier,
re-check existence via `ExistsAny` on the original labels, garbage-collect the
lookup-table entry when the check reports nothing, resolve the payload and
deserialize it into a freshly constructed event.  Returns the result, the
value of the captured namespace variable, and the storage. -/
def searchAttemptCore (kind : String) (labels : List String) (env : SearchEnv)
    (ns : String) (s : Storage) : Except Err event × String × Storage :=
  match popFromList s (namespaceKey kind ns) with
  | .error e => (.error e, ns, s)
  | .ok (eventID, s1) =>
    match ExistsAny kind labels s1 with
    | .error e => (.error e, ns, s1)
    | .ok ok =>
      let s2 := if ok then s1 else removeFromSet s1 (tableKey kind) ns
      match kvGet s2 (eventKey kind eventID) with
      | .error e => (.error e, ns, s2)
      | .ok rawEvent =>
        match New { created := env.now, id := env.freshId, payload := "" } with
        | .error e => (.error e, ns, s2)
        | .ok newEvent => (.ok (newEvent.UnmarshalJSON rawEvent), ns, s2)

/-- One pass of the retry action of `Search`: when the captured namespace
variable still holds the wildcard sentinel, draw one namespace at random from
the lookup table (overwriting the variable), then run the body. -/
def searchAttempt (kind : String) (labels : List String) (env : SearchEnv)
    (ns : String) (s : Storage) : Except Err event × String × Storage :=
  if ns = LabelWildcard then
    match getRandomFromSet s (tableKey kind) env.pick with
    | .error e => (.error e, ns, s)
    | .ok ns2 => searchAttemptCore kind labels env ns2 s
  else searchAttemptCore kind labels env ns s

/-- The retry loop of `backoff.RetryNotify`: one attempt per environment in
the list, stopping at the first success, surfacing the last failure when the
attempts are exhausted.  The namespace variable is threaded across attempts,
as it is captured by the Go closure.  The empty list is unreachable from
`Search`, which always performs at least one attempt. -/
def searchLoop (kind : String) (labels : List String) :
    List SearchEnv → String → Storage → Except Err event × Storage
  | [], _, s => (.error .notFound, s)
  | env :: rest, ns, s =>
    match searchAttempt kind labels env ns s, rest with
    | (.ok e, _, s1), _ => (.ok e, s1)
    | (.error err, _, s1), [] => (.error err, s1)
    | (.error _, ns1, s1), e2 :: rest2 => searchLoop kind labels (e2 :: rest2) ns1 s1

/-- `Search`: derive the namespace from the labels and run the retryable
action under the backoff policy.  `env` is the first attempt's environment and
`rest` the environments of the additional attempts the backoff policy grants
(so `rest = []` is the default `StopBackOff` policy). -/
def Search (kind : String) (labels : List String) (env : SearchEnv)
    (rest : List SearchEnv) (s : Storage) : Except Err event × Storage :=
  searchLoop kind labels (env :: rest) (namespaceFromLabels labels) s

/-- Resolution loop of `SearchAll`: resolve every identifier, in list order,
into a freshly constructed event carrying the stored bytes as payload; the
first failure aborts the whole call.  `fresh` supplies the ID generator and
clock outputs of the `i`-th `New(DefaultConfig())` call. -/
def resolveEvents (kind : String) (fresh : Nat → SearchEnv) :
    List String → Nat → Storage → Except Err (List event)
  | [], _, _ => .ok []
  | eventID :: restIds, i, s =>
    match kvGet s (eventKey kind eventID) with
    | .error e => .error e
    | .ok rawEvent =>
      match New { created := (fresh i).now, id := (fresh i).freshId, payload := "" } with
      | .error e => .error e
      | .ok newEvent =>
        match resolveEvents kind fresh restIds (i + 1) s with
        | .error e => .error e
        | .ok evs => .ok (newEvent.UnmarshalJSON rawEvent :: evs)

/-- `SearchAll`: non-blocking, non-mutating read of the whole namespace
backlog; a missing queue is a not-found error. -/
def SearchAll (kind : String) (labels : List String) (fresh : Nat → SearchEnv)
    (s : Storage) : Except Err (List event) :=
  let ns := namespaceFromLabels labels
  if ns = LabelWildcard then .error .invalidExecution
  else
    match ExistsAny kind labels s with
    | .error e => .error e
    | .ok false => .error .notFound
    | .ok true => resolveEvents kind fresh (getAllFromList s (namespaceKey kind ns)) 0 s

/-- The drain loop of `WriteAll`: while `ExistsAny` reports events, perform
one `Search` + `Delete` cycle.  Each entry of `envs` is the environment of one
cycle's `Search` call (first attempt plus backoff retries); running out of
entries before the namespace drains is the modelling artefact `outOfFuel`. -/
def writeAllDrain (kind : String) (labels : List String) :
    List (SearchEnv × List SearchEnv) → Storage → Except Err Storage
  | envs, s =>
    match ExistsAny kind labels s with
    | .error e => .error e
    | .ok false => .ok s
    | .ok true =>
      match envs with
      | [] => .error .outOfFuel
      | (env, rest) :: envsRest =>
        match Search kind labels env rest s with
        | (.error e, _) => .error e
        | (.ok ev, s1) =>
          match Delete kind ev labels s1 with
          | .error e => .error e
          | .ok s2 => writeAllDrain kind labels envsRest s2

/-- The fill loop of `WriteAll`: `Create` each new event in the given order. -/
def writeAllFill (kind : String) (labels : List String) :
    List event → Storage → Except Err Storage
  | [], s => .ok s
  | e :: rest, s =>
    match Create kind e labels s with
    | .error err => .error err
    | .ok s1 => writeAllFill kind labels rest s1

/-- `WriteAll`: full replace — reject the wildcard, drain the namespace via
`Search` + `Delete` cycles, then `Create` the new events in order. -/
def WriteAll (kind : String) (events : List event) (labels : List String)
    (envs : List (SearchEnv × List SearchEnv)) (s : Storage) : Except Err Storage :=
  let ns := namespaceFromLabels labels
  if ns = LabelWildcard then .error .invalidExecution
  else
    match writeAllDrain kind labels envs s with
    | .error e => .error e
    | .ok s1 => writeAllFill kind labels events s1

end NsService

/-! ## The label-addressed queue service

Embeds the simpler FIFO variant with the bidirectional label index:
`Publish`, `PublishWithLabels`, `Consume`, `Delete`, `ExistsAnyWithLabel`. -/

namespace LabelService

/-- Key of the list mapping an event's identifier to its labels. -/
def eventKey (e : event) : String := "event:" ++ e.id

/-- Key of the index list of one label. -/
def labelKey (l : String) : String := "label:" ++ l

/-- Key of the kind's single FIFO queue. -/
def queueKey (kind : String) : String := "queue:" ++ kind

/-- `Publish`: append the event's serialized form (`json.Marshal`) to the
kind's FIFO queue. -/
def Publish (kind : String) (e : event) (s : Storage) : Except Err Storage :=
  .ok (pushToList s (queueKey kind) e.MarshalJSON)

/-- `PublishWithLabels`: reject an empty label list; `Publish`; record the
labels under the event's identifier; append the identifier to each label's
index list. -/
def PublishWithLabels (kind : String) (e : event) (labels : List String)
    (s : Storage) : Except Err Storage :=
  if labels.isEmpty then .error .invalidExecution
  else
    match Publish kind e s with
    | .error err => .error err
    | .ok s1 =>
      let s2 := labels.foldl (fun st l => pushToList st (eventKey e) l) s1
      let s3 := labels.foldl (fun st l => pushToList st (labelKey l) e.id) s2
      .ok s3

/-- `Consume`: pop the head of the FIFO queue and deserialize it into a fresh
event; a missing or empty queue is a not-found error. -/
def Consume (kind : String) (env : NsService.SearchEnv) (s : Storage) :
    Except Err (event × Storage) :=
  match popFromList s (queueKey kind) with
  | .error e => .error e
  | .ok (result, s1) =>
    match New { created := env.now, id := env.freshId, payload := "" } with
    | .error e => .error e
    | .ok newEvent => .ok (newEvent.UnmarshalJSON result, s1)

/-- The per-label cleanup loop of `Delete`: remove the identifier from each
label's index list and remove the list's key entirely once it holds no
identifier anymore. -/
def deleteLabels (e : event) : List String → Storage → Storage
  | [], s => s
  | l :: rest, s =>
    let s1 := removeFromList s (labelKey l) e.id
    let s2 := if lengthOfList s1 (labelKey l) = 0 then removeListKey s1 (labelKey l) else s1
    deleteLabels e rest s2

/-- `Delete`: remove the event's serialized form from the FIFO queue by value,
clean the identifier out of every label index it was published under (dropping
emptied index lists), then remove the identifier-to-labels mapping. -/
def Delete (kind : String) (e : event) (s : Storage) : Except Err Storage :=
  let s1 := removeFromList s (queueKey kind) e.MarshalJSON
  let labels := getAllFromList s1 (eventKey e)
  let s2 := deleteLabels e labels s1
  .ok (removeListKey s2 (eventKey e))

/-- `ExistsAnyWithLabel`: true iff the label's index list exists. -/
def ExistsAnyWithLabel (l : String) (s : Storage) : Except Err Bool :=
  .ok (listExists s (labelKey l))

end LabelService

/-! ## The signal entity and signal composition

Embeds the `signal` struct (an event extended with invocation arguments and a
propagation context), its serialization hooks, `NewSignal`,
`NewSignalFromEvent` and `NewSignalFromSignals`. -/

/-- Stands for one `reflect.Value` invocation argument; its payload is opaque
to this package. -/
structure RVal where
  val : Nat
deriving DecidableEq, Repr

/-- The propagation context bag: trace/request-scoped key-values.  Its
internals are owned by the external `context` collaborator; this development
only needs some concrete executable carrier. -/
abbrev Ctx : Type := List (String × String)

/-- `context.New(context.DefaultConfig())`: a fresh empty context. -/
def emptyCtx : Ctx := []

/-- Modelled from the spec: the external pairwise context merge (package
`context/merge`), delegated merge semantics taken as last-writer-wins per key;
merging a nil context is a no-op. -/
def mergeTwoContexts (a : Ctx) (b : Option Ctx) : Ctx :=
  match b with
  | none => a
  | some c => (List.filter (fun p => !(c.any (fun q => q.1 = p.1))) a) ++ c

/-- `merge.NewContextFromContexts(base, ctxs)`: merge every context, in input
order, into the base context. -/
def NewContextFromContexts (base : Ctx) (ctxs : List (Option Ctx)) : Except Err Ctx :=
  .ok (ctxs.foldl mergeTwoContexts base)

/-- The `signal` struct: unexported fields `payload`, `arguments`, `context`,
`created`, `id`.  The context may be Go's nil (`none`). -/
structure signal where
  payload : String
  arguments : List RVal
  context : Option Ctx
  created : Nat
  id : String
deriving DecidableEq

/-- `signal.MarshalJSON`: as for `event`, every field of the `Clone` view is
unexported, so the encoder emits the empty object. -/
def signal.MarshalJSON (_ : signal) : String := emptyJsonObject

/-- `signal.UnmarshalJSON`: the inner `json.Unmarshal` assigns no field (all
unexported); the only effect is caching the input bytes as the payload. -/
def signal.UnmarshalJSON (sg : signal) (b : String) : signal :=
  { sg with payload := b }

/-- Construction input for `NewSignal`. -/
structure SignalConfig where
  arguments : List RVal
  context : Option Ctx
  created : Nat
  id : String

/-- `DefaultSignalConfig`: no arguments, nil context, the clock's current time
and a generator-provided fresh identifier (both passed in explicitly). -/
def DefaultSignalConfig (newId : String) (now : Nat) : SignalConfig :=
  { arguments := [], context := none, created := now, id := newId }

/-- `NewSignal`: validate context, timestamp and identifier, then compute and
cache the entity's own serialization as its payload. -/
def NewSignal (c : SignalConfig) : Except Err signal :=
  match c.context with
  | none => .error .invalidConfig
  | some _ =>
    if c.created = 0 then .error .invalidConfig
    else if c.id = "" then .error .invalidConfig
    else
      let sg : signal :=
        { payload := "", arguments := c.arguments, context := c.context,
          created := c.created, id := c.id }
      .ok { sg with payload := sg.MarshalJSON }

/-- `json.Unmarshal` handed a nil `*signal` pointer (`var newSignal *signal`)
fails with an InvalidUnmarshalError before looking at the input bytes. -/
def unmarshalIntoNilSignalPtr (_ : String) : Except Err signal :=
  .error .invalidUnmarshal

/-- `NewSignalFromEvent`: unmarshal the event's payload into a nil `*signal`
pointer, then validate and cache the payload.  The first step never
succeeds. -/
def NewSignalFromEvent (e : event) : Except Err signal :=
  match unmarshalIntoNilSignalPtr e.payload with
  | .error err => .error err
  | .ok newSignal =>
    if newSignal.context = none then .error .invalidConfig
    else if newSignal.created = 0 then .error .invalidConfig
    else if newSignal.id = "" then .error .invalidConfig
    else .ok { newSignal with payload := e.payload }

/-- `NewSignalFromSignals`: reject an empty input list; concatenate every
input signal's arguments in order; merge every input signal's context, in
input order, into a freshly created empty context; build the new signal on a
default config (fresh identifier, current time). -/
def NewSignalFromSignals (signals : List signal) (newId : String) (now : Nat) :
    Except Err signal :=
  if signals.isEmpty then .error .invalidConfig
  else
    let args := (signals.map (fun sg => sg.arguments)).flatten
    let allCtxs := signals.map (fun sg => sg.context)
    match NewContextFromContexts emptyCtx allCtxs with
    | .error e => .error e
    | .ok ctx =>
      let c0 := DefaultSignalConfig newId now
      NewSignal { c0 with arguments := args, context := some ctx }

/-! ## Demo inputs used by the concrete evaluation theorems -/

/-- A demo event held by a namespace before the operations under scrutiny. -/
def e1demo : event := { created := 1, id := "id1", payload := "p1" }

/-- A second demo event. -/
def e2demo : event := { created := 1, id := "id2", payload := "p2" }

/-- A demo event for the `WriteAll` scenario whose payload is a valid JSON
object — the shape any real payload has, since payloads are either the `\x7b\x7d`
cached by `New` or wire bytes that passed `json.Unmarshal`.  On such bytes
every `json.Unmarshal` call inside `Search`/`SearchAll` succeeds in the
source, as in this model. -/
def c3e1 : event := { created := 1, id := "id1", payload := "\x7b\"n\":1\x7d" }

/-- Second queued demo event of the `WriteAll` scenario (valid JSON payload). -/
def c3e2 : event := { created := 1, id := "id2", payload := "\x7b\"n\":2\x7d" }

/-- First replacement event of the `WriteAll` scenario (valid JSON payload). -/
def c3e3 : event := { created := 1, id := "id3", payload := "\x7b\"n\":3\x7d" }

/-- Second replacement event of the `WriteAll` scenario (valid JSON payload). -/
def c3e4 : event := { created := 1, id := "id4", payload := "\x7b\"n\":4\x7d" }

/-- A demo per-attempt environment for `Search`. -/
def env0 : NsService.SearchEnv := { pick := 0, freshId := "f1", now := 1 }

/-- The storage reached from the empty backend by `Create(e1demo, "a")`. -/
def c1Start : Storage :=
  match NsService.Create "activator" e1demo ["a"] emptyStorage with
  | .ok s => s
  | .error _ => emptyStorage

/-- The storage after the wildcard `Search` on `c1Start`. -/
def c1After : Storage :=
  (NsService.Search "activator" ["*"] env0 [] c1Start).2

/-- The storage reached from the empty backend by `Create(c3e1, "l")`. -/
def c3Start1 : Storage :=
  match NsService.Create "activator" c3e1 ["l"] emptyStorage with
  | .ok s => s
  | .error _ => emptyStorage

/-- The storage reached from `c3Start1` by `Create(c3e2, "l")`; namespace
`"l"` now holds exactly the queue `[id1, id2]`. -/
def c3Start2 : Storage :=
  match NsService.Create "activator" c3e2 ["l"] c3Start1 with
  | .ok s => s
  | .error _ => emptyStorage

/-- Search environments for the two drain cycles of the `WriteAll` demo. -/
def c3DrainEnvs : List (NsService.SearchEnv × List NsService.SearchEnv) :=
  [({ pick := 0, freshId := "f1", now := 1 }, []),
   ({ pick := 0, freshId := "f2", now := 1 }, [])]

/-- The storage after `WriteAll([c3e3, c3e4], "l")` on `c3Start2`. -/
def c3After : Storage :=
  match NsService.WriteAll "activator" [c3e3, c3e4] ["l"] c3DrainEnvs c3Start2 with
  | .ok s => s
  | .error _ => emptyStorage

/-- ID-generator / clock outputs for the `New(DefaultConfig())` calls of the
demo `SearchAll`. -/
def c3Fresh : Nat → NsService.SearchEnv :=
  fun i => { pick := 0, freshId := "g" ++ toString i, now := 1 }

/-- A demo signal with one argument and a one-entry context. -/
def sig1demo : signal :=
  { payload := emptyJsonObject, arguments := [⟨1⟩],
    context := some [("k1", "v1")], created := 1, id := "s1" }

/-- A second demo signal with one argument and a one-entry context. -/
def sig2demo : signal :=
  { payload := emptyJsonObject, arguments := [⟨2⟩],
    context := some [("k2", "v2")], created := 1, id := "s2" }

/-! ## Order properties of the lexicographic comparator -/

theorem strLeB_cons_iff (a b : Char) (as bs : List Char) :
    strLeB (a :: as) (b :: bs) = true ↔
      a.toNat < b.toNat ∨ (a.toNat = b.toNat ∧ strLeB as bs = true) := by
  by_cases h1 : a.toNat < b.toNat
  · simp [strLeB, h1]
  · by_cases h2 : b.toNat < a.toNat
    · simp only [strLeB, if_neg h1, if_pos h2]
      constructor
      · intro h; exact absurd h (by simp)
      · rintro (h | ⟨h, _⟩) <;> omega
    · have he : a.toNat = b.toNat := by omega
      simp [strLeB, h1, h2, he]

theorem strLeB_total (as bs : List Char) : strLeB as bs = true ∨ strLeB bs as = true := by
  induction as generalizing bs with
  | nil => left; rfl
  | cons a as ih =>
    cases bs with
    | nil => right; rfl
    | cons b bs =>
      rw [strLeB_cons_iff, strLeB_cons_iff]
      rcases Nat.lt_trichotomy a.toNat b.toNat with h | h | h
      · left; left; exact h
      · rcases ih bs with h' | h'
        · left; right; exact ⟨h, h'⟩
        · right; right; exact ⟨h.symm, h'⟩
      · right; left; exact h

theorem strLeB_trans (as bs cs : List Char) (hab : strLeB as bs = true)
    (hbc : strLeB bs cs = true) : strLeB as cs = true := by
  induction as generalizing bs cs with
  | nil => rfl
  | cons a as ih =>
    cases bs with
    | nil => simp [strLeB] at hab
    | cons b bs =>
      cases cs with
      | nil => simp [strLeB] at hbc
      | cons c cs =>
        rw [strLeB_cons_iff] at hab hbc ⊢
        rcases hab with h | ⟨h, hab2⟩ <;> rcases hbc with h' | ⟨h', hbc2⟩
        · left; omega
        · left; omega
        · left; omega
        · right; exact ⟨by omega, ih bs cs hab2 hbc2⟩

theorem charToNat_inj {a b : Char} (h : a.toNat = b.toNat) : a = b := by
  apply Char.ext
  unfold Char.toNat at h
  exact UInt32.ext (Nat.le_antisymm (Nat.le_of_eq h) (Nat.le_of_eq h.symm))

theorem strLeB_antisymm (as bs : List Char) (hab : strLeB as bs = true)
    (hba : strLeB bs as = true) : as = bs := by
  induction as generalizing bs with
  | nil =>
    cases bs with
    | nil => rfl
    | cons b bs => simp [strLeB] at hba
  | cons a as ih =>
    cases bs with
    | nil => simp [strLeB] at hab
    | cons b bs =>
      rw [strLeB_cons_iff] at hab hba
      rcases hab with h | ⟨h, hab2⟩ <;> rcases hba with h' | ⟨h', hba2⟩ <;> try omega
      rw [charToNat_inj h, ih bs hab2 hba2]

theorem strLe_antisymm (a b : String) (h1 : strLe a b = true) (h2 : strLe b a = true) :
    a = b := by
  cases a with
  | mk da =>
    cases b with
    | mk db => exact congrArg String.mk (strLeB_antisymm da db h1 h2)

/-- Two permuted label lists sort to the same list. -/
theorem sortStrings_perm_eq (l1 l2 : List String) (h : l1.Perm l2) :
    sortStrings l1 = sortStrings l2 := by
  haveI ht : IsTotal String (fun a b => strLe a b = true) :=
    ⟨fun a b => strLeB_total a.data b.data⟩
  haveI htr : IsTrans String (fun a b => strLe a b = true) :=
    ⟨fun a b c => strLeB_trans a.data b.data c.data⟩
  haveI has : IsAntisymm String (fun a b => strLe a b = true) :=
    ⟨strLe_antisymm⟩
  unfold sortStrings
  refine List.eq_of_perm_of_sorted ?_
    (List.sorted_insertionSort (fun a b => strLe a b = true) l1)
    (List.sorted_insertionSort (fun a b => strLe a b = true) l2)
  exact ((List.perm_insertionSort _ l1).trans h).trans
    (List.perm_insertionSort _ l2).symm

/-! ## Claim C4 -/

/-- C4, counterexample: the label lists `["a", "a"]` and `["a"]` have equal
element sets, yet their derived namespaces differ (`"aa"` vs `"a"`), because
`namespaceFromLabels` sorts and concatenates without removing duplicates. -/
theorem C4_setEqual_labels_unequal_namespace :
    (∀ x : String, x ∈ (["a", "a"] : List String) ↔ x ∈ (["a"] : List String)) ∧
    NsService.namespaceFromLabels ["a", "a"] ≠ NsService.namespaceFromLabels ["a"] :=
  ⟨fun x => by simp, by decide⟩

/-- C4, amended: for all label lists that are permutations of each other
(equal as multisets, in any order), the derived namespace strings are equal,
the namespace being computed by sorting the labels lexicographically and
concatenating them with no separator. -/
theorem C4_namespaceFromLabels_perm_invariant (l1 l2 : List String)
    (h : l1.Perm l2) :
    NsService.namespaceFromLabels l1 = NsService.namespaceFromLabels l2 := by
  unfold NsService.namespaceFromLabels
  rw [sortStrings_perm_eq l1 l2 h]

/-- C4, witness: the amended theorem applied to the permuted label lists
`["b", "a"]` and `["a", "b"]`. -/
theorem C4_witness :
    NsService.namespaceFromLabels ["b", "a"] = NsService.namespaceFromLabels ["a", "b"] ∧
    NsService.namespaceFromLabels ["a", "b"] = "ab" :=
  ⟨C4_namespaceFromLabels_perm_invariant ["b", "a"] ["a", "b"]
    (List.Perm.swap "a" "b" []), by decide⟩

/-! ## Claim C5 -/

/-- C5: for every event and every non-wildcard label set, `Delete` in the
namespace-addressed service removes only the stored payload keyed by the
event's identifier; every namespace queue (hence any still-queued occurrence
of that identifier) and the lookup table are left unchanged, and no other
stored payload is touched. -/
theorem C5_Delete_removes_only_payload (kind : String) (e : event)
    (labels : List String) (s : Storage)
    (h : NsService.namespaceFromLabels labels ≠ LabelWildcard) :
    NsService.Delete kind e labels s = .ok (kvRemove s (NsService.eventKey kind e.id)) ∧
    (kvRemove s (NsService.eventKey kind e.id)).lists = s.lists ∧
    (kvRemove s (NsService.eventKey kind e.id)).sets = s.sets ∧
    (kvRemove s (NsService.eventKey kind e.id)).kv (NsService.eventKey kind e.id) = none ∧
    (∀ k, k ≠ NsService.eventKey kind e.id →
      (kvRemove s (NsService.eventKey kind e.id)).kv k = s.kv k) := by
  refine ⟨by simp [NsService.Delete, h], rfl, rfl, by simp [kvRemove], ?_⟩
  intro k hk
  simp [kvRemove, hk]

/-- C5, witness: the theorem applied to `e1demo` under the concrete
non-wildcard label `"a"` on the empty backend. -/
theorem C5_witness :
    NsService.Delete "activator" e1demo ["a"] emptyStorage =
      .ok (kvRemove emptyStorage (NsService.eventKey "activator" e1demo.id)) :=
  (C5_Delete_removes_only_payload "activator" e1demo ["a"] emptyStorage (by decide)).1

/-! ## Claim C6 -/

/-- C6: serializing an event and then deserializing the produced bytes yields
an event whose payload is byte-for-byte identical to those exact serialized
bytes — deserialization caches the incoming byte-string (whatever it is) as
the payload rather than re-serializing. -/
theorem C6_serialize_roundtrip_payload (e e0 : event) (b : String) :
    (e0.UnmarshalJSON e.MarshalJSON).payload = e.MarshalJSON ∧
    (e0.UnmarshalJSON b).payload = b :=
  ⟨rfl, rfl⟩

/-! ## Claim C9 -/

/-- C9: `NewSignalFromEvent` returns an error for every input event — the nil
`*signal` pointer handed to `json.Unmarshal` fails before any field validation
or payload caching, so no signal is ever reconstructed through this
function. -/
theorem C9_NewSignalFromEvent_always_errors (e : event) :
    NewSignalFromEvent e = .error .invalidUnmarshal := rfl

/-! ## Claim C10 -/

/-- C10: `UnmarshalJSON` on an event or signal modifies only the cached
payload field, setting it to exactly the input bytes; `created`, `id`,
`arguments` and `context` are left unchanged by deserialization, and
`MarshalJSON` produces the empty JSON object for every event and signal, so a
deserialized entity does not recover the original creation timestamp or
identifier from the bytes. -/
theorem C10_unexported_fields_frame (e : event) (sg : signal) (b c : String) :
    event.UnmarshalJSON e b = { e with payload := b } ∧
    (event.UnmarshalJSON e b).created = e.created ∧
    (event.UnmarshalJSON e b).id = e.id ∧
    e.MarshalJSON = emptyJsonObject ∧
    signal.UnmarshalJSON sg c = { sg with payload := c } ∧
    (signal.UnmarshalJSON sg c).arguments = sg.arguments ∧
    (signal.UnmarshalJSON sg c).context = sg.context ∧
    (signal.UnmarshalJSON sg c).created = sg.created ∧
    (signal.UnmarshalJSON sg c).id = sg.id ∧
    sg.MarshalJSON = emptyJsonObject :=
  ⟨rfl, rfl, rfl, rfl, rfl, rfl, rfl, rfl, rfl, rfl⟩

/-! ## Claim C7 -/

/-- C7: `NewSignalFromSignals` fails with InvalidConfig on an empty list of
signals; given at least one, it returns a new signal whose arguments are
exactly the concatenation of the input signals' argument sequences (input
order and each signal's internal order preserved), and whose context is built
by merging every input signal's context, in input order, into a freshly
created empty context; it carries the freshly generated identifier and the
current timestamp. -/
theorem C7_NewSignalFromSignals_spec (signals : List signal) (newId : String)
    (now : Nat) (hid : newId ≠ "") (hnow : now ≠ 0) :
    (signals = [] → NewSignalFromSignals signals newId now = .error .invalidConfig) ∧
    (∀ sg0 rest, signals = sg0 :: rest →
      NewSignalFromSignals signals newId now = .ok
        { payload := emptyJsonObject,
          arguments := (signals.map (fun sg => sg.arguments)).flatten,
          context := some ((signals.map (fun sg => sg.context)).foldl mergeTwoContexts emptyCtx),
          created := now, id := newId }) := by
  constructor
  · intro h; subst h; rfl
  · intro sg0 rest h
    subst h
    simp [NewSignalFromSignals, NewContextFromContexts, NewSignal,
      DefaultSignalConfig, signal.MarshalJSON, hnow, hid]

/-- C7, witness: the theorem applied to the two-signal list
`[sig1demo, sig2demo]` with fresh identifier `"n1"` and time `5`. -/
theorem C7_witness :
    ("n1" ≠ "" ∧ (5 : Nat) ≠ 0) ∧
    NewSignalFromSignals [sig1demo, sig2demo] "n1" 5 = .ok
      { payload := emptyJsonObject, arguments := [⟨1⟩, ⟨2⟩],
        context := some [("k1", "v1"), ("k2", "v2")], created := 5, id := "n1" } :=
  ⟨⟨by decide, by decide⟩,
   ((C7_NewSignalFromSignals_spec [sig1demo, sig2demo] "n1" 5 (by decide) (by decide)).2
      sig1demo [sig2demo] rfl).trans (by rfl)⟩

/-! ## Claim C8 -/

/-- No key built by another key scheme can coincide with an event-id key: an
event-id key always starts with the character `e`. -/
theorem ne_eventKey_of_head (e : event) (t : String) (h : t.data.head? ≠ some 'e') :
    t ≠ LabelService.eventKey e := by
  intro heq
  apply h
  rw [heq]
  show ("event:" ++ e.id).data.head? = some 'e'
  rw [String.data_append]
  rfl

/-- C8: in the label-addressed service, after publishing any one event under
the labels `"x"` and `"y"` via `PublishWithLabels` and then deleting it via
`Delete`, both `ExistsAnyWithLabel "x"` and `ExistsAnyWithLabel "y"` return
false: `Delete` removes the identifier from each label's index list and
removes a label's index list entirely once it becomes empty. -/
theorem C8_publish_delete_clears_labels (e : event) :
    ∃ s1 s2,
      LabelService.PublishWithLabels "signal" e ["x", "y"] emptyStorage = .ok s1 ∧
      LabelService.Delete "signal" e s1 = .ok s2 ∧
      LabelService.ExistsAnyWithLabel "x" s2 = .ok false ∧
      LabelService.ExistsAnyWithLabel "y" s2 = .ok false := by
  have hq : LabelService.queueKey "signal" ≠ LabelService.eventKey e :=
    ne_eventKey_of_head e _ (by decide)
  have hx : LabelService.labelKey "x" ≠ LabelService.eventKey e :=
    ne_eventKey_of_head e _ (by decide)
  have hy : LabelService.labelKey "y" ≠ LabelService.eventKey e :=
    ne_eventKey_of_head e _ (by decide)
  have hxy : LabelService.labelKey "x" ≠ LabelService.labelKey "y" := by decide
  have hxq : LabelService.labelKey "x" ≠ LabelService.queueKey "signal" := by decide
  have hyq : LabelService.labelKey "y" ≠ LabelService.queueKey "signal" := by decide
  refine ⟨_, _, rfl, rfl, ?_, ?_⟩ <;>
    simp [LabelService.PublishWithLabels, LabelService.Publish, LabelService.Delete,
      LabelService.ExistsAnyWithLabel, LabelService.deleteLabels, pushToList, setList,
      removeFromList, removeListKey, lengthOfList, getAllFromList, listExists,
      emptyStorage, event.MarshalJSON, hq, hx, hy, hq.symm, hx.symm, hy.symm,
      hxy, hxy.symm, hxq, hxq.symm, hyq, hyq.symm]

/-! ## Claim C1 -/

/-- C1, failing execution: on a backend holding one namespace `"a"` with one
queued event (reached from the empty backend by `Create`), the wildcard
`Search` pops the head identifier of the randomly selected namespace but then
re-checks emptiness by calling `ExistsAny` on the original label list — which
is the wildcard sentinel, so the re-check fails InvalidExecution.  The
attempt therefore neither garbage-collects the lookup-table entry of the
drained namespace nor proceeds to resolve the popped identifier's payload:
the call errors, the queue is empty and the table entry is stale. -/
theorem C1_wildcard_search_fails_invalidExecution :
    NsService.Create "activator" e1demo ["a"] emptyStorage = .ok c1Start ∧
    (NsService.Search "activator" ["*"] env0 [] c1Start).1 =
      .error .invalidExecution ∧
    c1After.lists (NsService.namespaceKey "activator" "a") = [] ∧
    c1After.sets (NsService.tableKey "activator") = ["a"] :=
  ⟨rfl, rfl, rfl, rfl⟩

/-! ## Claim C2 -/

/-- C2, failing execution: the lookup-table invariant is violated at a state
reached by completed sequential operations.  After `Create(e1demo, "a")` on
the empty backend and one completed (failing) wildcard `Search`, the
namespace `"a"` is still present in the lookup table while its queue is
empty, because the post-pop existence re-check inside `Search` evaluates the
wildcard label set and errors before the garbage-collection step. -/
theorem C2_lookup_table_invariant_violated :
    NsService.Create "activator" e1demo ["a"] emptyStorage = .ok c1Start ∧
    "a" ∈ c1After.sets (NsService.tableKey "activator") ∧
    c1After.lists (NsService.namespaceKey "activator" "a") = [] :=
  ⟨rfl, by decide, rfl⟩

/-! ## Claim C3 -/

/-- C3, failing execution: with namespace `"l"` holding exactly
`[c3e1, c3e2]` (reached by two `Create` calls; every payload involved is a
valid JSON object, so all the `json.Unmarshal` calls inside `Search` and
`SearchAll` succeed in the source), a successful `WriteAll([c3e3, c3e4], "l")`
leaves the stored payloads of `c3e1` and `c3e2` still resolvable from
storage — the drain phase's `Delete` receives the event reconstructed by
`Search`, which carries a freshly generated identifier (deserialization
cannot restore the unexported `id` field), so it removes the key of that
fresh identifier instead of the drained event's key.  Moreover `SearchAll`
afterwards returns events that carry the payload bytes of `c3e3`/`c3e4` but
fresh identifiers, not the events `c3e3`/`c3e4` themselves. -/
theorem C3_writeAll_leaves_old_payloads_resolvable :
    NsService.Create "activator" c3e1 ["l"] emptyStorage = .ok c3Start1 ∧
    NsService.Create "activator" c3e2 ["l"] c3Start1 = .ok c3Start2 ∧
    NsService.WriteAll "activator" [c3e3, c3e4] ["l"] c3DrainEnvs c3Start2 =
      .ok c3After ∧
    kvGet c3After (NsService.eventKey "activator" c3e1.id) = .ok c3e1.payload ∧
    kvGet c3After (NsService.eventKey "activator" c3e2.id) = .ok c3e2.payload ∧
    NsService.SearchAll "activator" ["l"] c3Fresh c3After =
      .ok [{ created := 1, id := "g0", payload := c3e3.payload },
           { created := 1, id := "g1", payload := c3e4.payload }] :=
  ⟨rfl, rfl, rfl, rfl, rfl, rfl⟩

end EventPkg
